import Mathlib

/-!
Shallow embedding of `olapy/core/mdx/tools/config_file_parser.py`.

The Python module reads a YAML cube-configuration file and builds the
domain objects `Cube`, `Facts` and `Dimension`.  We model:

  * YAML documents as the inductive `Yaml` (strings, booleans, integers,
    null, sequences, and string-keyed mappings);
  * Python exceptions as `PyError`;
  * the filesystem as a finite map from paths to file contents, where a
    file content is either a decodable document or a decode failure;
  * `os.environ` as a finite list of string pairs;
  * Python `dict` / `OrderedDict` construction from an iterable of pairs
    (insertion order preserved, inserting an existing key updates the
    value in place) as `dict_of_pairs`.

Each fallible Python operation becomes an `Except PyError` computation,
sequenced in the evaluation order of the source.
-/

/-- A decoded YAML document (the tree `yaml.load` produces). -/
inductive Yaml where
  | null : Yaml
  | bool : Bool → Yaml
  | int : Int → Yaml
  | str : String → Yaml
  | list : List Yaml → Yaml
  | map : List (String × Yaml) → Yaml

/- Structural (Python `==`) equality test on decoded documents, with
its pointwise extensions to element lists and entry lists. -/
mutual

def Yaml.beq : Yaml → Yaml → Bool
  | .null, .null => true
  | .bool a, .bool b => a == b
  | .int a, .int b => a == b
  | .str a, .str b => a == b
  | .list xs, .list ys => Yaml.beqList xs ys
  | .map ps, .map qs => Yaml.beqMap ps qs
  | _, _ => false

def Yaml.beqList : List Yaml → List Yaml → Bool
  | [], [] => true
  | x :: xs, y :: ys => Yaml.beq x y && Yaml.beqList xs ys
  | _, _ => false

def Yaml.beqMap : List (String × Yaml) → List (String × Yaml) → Bool
  | [], [] => true
  | (k, v) :: ps, (l, w) :: qs => k == l && Yaml.beq v w && Yaml.beqMap ps qs
  | _, _ => false

end

mutual

theorem Yaml.beq_refl : ∀ a : Yaml, Yaml.beq a a = true
  | .null => by simp [Yaml.beq]
  | .bool a => by simp [Yaml.beq]
  | .int a => by simp [Yaml.beq]
  | .str a => by simp [Yaml.beq]
  | .list xs => by simp [Yaml.beq, Yaml.beqList_refl xs]
  | .map ps => by simp [Yaml.beq, Yaml.beqMap_refl ps]

theorem Yaml.beqList_refl : ∀ xs : List Yaml, Yaml.beqList xs xs = true
  | [] => by simp [Yaml.beqList]
  | x :: xs => by simp [Yaml.beqList, Yaml.beq_refl x, Yaml.beqList_refl xs]

theorem Yaml.beqMap_refl : ∀ ps : List (String × Yaml), Yaml.beqMap ps ps = true
  | [] => by simp [Yaml.beqMap]
  | (k, v) :: ps => by simp [Yaml.beqMap, Yaml.beq_refl v, Yaml.beqMap_refl ps]

end

mutual

theorem Yaml.eq_of_beq : ∀ a b : Yaml, Yaml.beq a b = true → a = b
  | .null, .null, _ => rfl
  | .bool a, .bool b, h => by simp [Yaml.beq] at h; rw [h]
  | .int a, .int b, h => by simp [Yaml.beq] at h; rw [h]
  | .str a, .str b, h => by simp [Yaml.beq] at h; rw [h]
  | .list xs, .list ys, h => by
      simp only [Yaml.beq] at h
      rw [Yaml.eqList_of_beqList xs ys h]
  | .map ps, .map qs, h => by
      simp only [Yaml.beq] at h
      rw [Yaml.eqMap_of_beqMap ps qs h]
  | .null, .bool _, h => by simp [Yaml.beq] at h
  | .null, .int _, h => by simp [Yaml.beq] at h
  | .null, .str _, h => by simp [Yaml.beq] at h
  | .null, .list _, h => by simp [Yaml.beq] at h
  | .null, .map _, h => by simp [Yaml.beq] at h
  | .bool _, .null, h => by simp [Yaml.beq] at h
  | .bool _, .int _, h => by simp [Yaml.beq] at h
  | .bool _, .str _, h => by simp [Yaml.beq] at h
  | .bool _, .list _, h => by simp [Yaml.beq] at h
  | .bool _, .map _, h => by simp [Yaml.beq] at h
  | .int _, .null, h => by simp [Yaml.beq] at h
  | .int _, .bool _, h => by simp [Yaml.beq] at h
  | .int _, .str _, h => by simp [Yaml.beq] at h
  | .int _, .list _, h => by simp [Yaml.beq] at h
  | .int _, .map _, h => by simp [Yaml.beq] at h
  | .str _, .null, h => by simp [Yaml.beq] at h
  | .str _, .bool _, h => by simp [Yaml.beq] at h
  | .str _, .int _, h => by simp [Yaml.beq] at h
  | .str _, .list _, h => by simp [Yaml.beq] at h
  | .str _, .map _, h => by simp [Yaml.beq] at h
  | .list _, .null, h => by simp [Yaml.beq] at h
  | .list _, .bool _, h => by simp [Yaml.beq] at h
  | .list _, .int _, h => by simp [Yaml.beq] at h
  | .list _, .str _, h => by simp [Yaml.beq] at h
  | .list _, .map _, h => by simp [Yaml.beq] at h
  | .map _, .null, h => by simp [Yaml.beq] at h
  | .map _, .bool _, h => by simp [Yaml.beq] at h
  | .map _, .int _, h => by simp [Yaml.beq] at h
  | .map _, .str _, h => by simp [Yaml.beq] at h
  | .map _, .list _, h => by simp [Yaml.beq] at h

theorem Yaml.eqList_of_beqList :
    ∀ xs ys : List Yaml, Yaml.beqList xs ys = true → xs = ys
  | [], [], _ => rfl
  | x :: xs, y :: ys, h => by
      simp only [Yaml.beqList, Bool.and_eq_true] at h
      rw [Yaml.eq_of_beq x y h.1, Yaml.eqList_of_beqList xs ys h.2]
  | [], _ :: _, h => by simp [Yaml.beqList] at h
  | _ :: _, [], h => by simp [Yaml.beqList] at h

theorem Yaml.eqMap_of_beqMap :
    ∀ ps qs : List (String × Yaml), Yaml.beqMap ps qs = true → ps = qs
  | [], [], _ => rfl
  | (k, v) :: ps, (l, w) :: qs, h => by
      simp only [Yaml.beqMap, Bool.and_eq_true, beq_iff_eq] at h
      rw [h.1.1, Yaml.eq_of_beq v w h.1.2, Yaml.eqMap_of_beqMap ps qs h.2]
  | [], _ :: _, h => by simp [Yaml.beqMap] at h
  | _ :: _, [], h => by simp [Yaml.beqMap] at h

end

instance : DecidableEq Yaml := fun a b =>
  if h : Yaml.beq a b = true then
    isTrue (Yaml.eq_of_beq a b h)
  else
    isFalse (fun hc => h (hc ▸ Yaml.beq_refl a))

instance {ε α : Type} [DecidableEq ε] [DecidableEq α] :
    DecidableEq (Except ε α) := fun a b =>
  match a, b with
  | .ok x, .ok y =>
      if h : x = y then isTrue (by rw [h])
      else isFalse (fun hc => h (by injection hc))
  | .error e, .error f =>
      if h : e = f then isTrue (by rw [h])
      else isFalse (fun hc => h (by injection hc))
  | .ok _, .error _ => isFalse (fun hc => Except.noConfusion hc)
  | .error _, .ok _ => isFalse (fun hc => Except.noConfusion hc)

/-- The Python exceptions the module can raise. -/
inductive PyError where
  | keyError (key : String)
  | typeError
  | fileNotFoundError (path : String)
  | yamlError
  | valueError (msg : String)
deriving DecidableEq

/-- Python `d[k]` on a decoded document: a key lookup on a mapping raises
`KeyError` when the key is absent; subscripting any non-mapping value with
a string raises `TypeError`. -/
def yaml_getitem (y : Yaml) (k : String) : Except PyError Yaml :=
  match y with
  | .map ps =>
      match ps.find? (fun p => p.1 = k) with
      | some p => .ok p.2
      | none => .error (.keyError k)
  | _ => .error .typeError

/-- Python `k in y`: key membership for mappings, element membership for
sequences, substring test for strings, `TypeError` otherwise. -/
def py_contains (y : Yaml) (k : String) : Except PyError Bool :=
  match y with
  | .map ps => .ok (ps.any (fun p => p.1 = k))
  | .list xs => .ok (xs.any (fun v => v = .str k))
  | .str s => .ok (decide ((s.splitOn k).length ≠ 1))
  | _ => .error .typeError

/-- Python iteration `for x in y`: sequences yield their elements,
mappings their keys, strings their characters; other values raise
`TypeError`. -/
def py_iter (y : Yaml) : Except PyError (List Yaml) :=
  match y with
  | .list xs => .ok xs
  | .map ps => .ok (ps.map (fun p => Yaml.str p.1))
  | .str s => .ok (s.data.map (fun c => Yaml.str (String.mk [c])))
  | _ => .error .typeError

/-- Python hashability of a decoded value (lists and dicts are
unhashable). -/
def py_hashable : Yaml → Bool
  | .list _ => false
  | .map _ => false
  | _ => true

/-- Insert a binding into a Python dict (a key-unique association list):
an existing key keeps its position and gets the new value, a new key is
appended at the end. -/
def dict_insert {α β : Type} [DecidableEq α] :
    List (α × β) → α → β → List (α × β)
  | [], k, v => [(k, v)]
  | p :: rest, k, v =>
      if p.1 = k then (k, v) :: rest else p :: dict_insert rest k v

/-- Build a Python `dict` / `OrderedDict` from an iterable of pairs,
inserting them in order. -/
def dict_of_pairs {α β : Type} [DecidableEq α]
    (ps : List (α × β)) : List (α × β) :=
  ps.foldl (fun d p => dict_insert d p.1 p.2) []

/-- `d[k]` as an optional lookup (first, hence unique, matching key). -/
def dict_lookup {α β : Type} [DecidableEq α]
    (d : List (α × β)) (k : α) : Option β :=
  (d.find? (fun p => p.1 = k)).map (fun p => p.2)

/-- Content of one file: either a document that decodes, or a byte blob
on which `yaml.load` fails. -/
abbrev FileContent : Type := Except Unit Yaml

/-- The filesystem: a finite map from paths to file contents. -/
structure FS where
  files : List (String × FileContent)

/-- Lookup of a path in the filesystem. -/
def fs_lookup (fs : FS) (path : String) : Option FileContent :=
  (fs.files.find? (fun p => p.1 = path)).map (fun p => p.2)

/-- `os.path.isfile` in the model. -/
def fs_isfile (fs : FS) (path : String) : Bool :=
  (fs_lookup fs path).isSome

/-- `open(path)` followed by `yaml.load`: `FileNotFoundError` when the
path is absent, a YAML decode error when the bytes do not parse, the
document otherwise. -/
def open_and_yaml_load (fs : FS) (path : String) : Except PyError Yaml :=
  match fs_lookup fs path with
  | none => .error (.fileNotFoundError path)
  | some (.error _) => .error .yamlError
  | some (.ok y) => .ok y

/-- POSIX `os.path.join` on two components. -/
def os_path_join (a b : String) : String :=
  if b.data.head? = some '/' then b
  else if a = "" then b
  else if a.data.getLast? = some '/' then a ++ b
  else a ++ "/" ++ b

/-- `os.environ` in the model. -/
def Env : Type := List (String × String)

/-- Environment-variable lookup. -/
def env_lookup (env : Env) (k : String) : Option String :=
  (env.find? (fun p => p.1 = k)).map (fun p => p.2)

/-- The `ConfigParser` object state after `__init__`. -/
structure ConfigParser where
  cube_path : String
  file_name : String
  web_config_file_name : String
deriving DecidableEq

/-- `ConfigParser._get_cube_path`: the `OLAPY_PATH` environment variable,
when set, replaces the expanded home directory; the fixed subpath
`olapy-data/cubes` is then joined on. `home` models `expanduser("~")`. -/
def _get_cube_path (env : Env) (home : String) : String :=
  let home_directory :=
    match env_lookup env "OLAPY_PATH" with
    | some v => v
    | none => home
  os_path_join (os_path_join home_directory "olapy-data") "cubes"

/-- `ConfigParser.__init__`: a truthy (non-empty) `cube_path` argument is
taken as is, otherwise `_get_cube_path` supplies it. -/
def ConfigParser.init (env : Env) (home : String)
    (cube_path : Option String)
    (file_name : String := "cubes-config.yml")
    (web_config_file_name : String := "web_cube_config.xml") : ConfigParser :=
  { cube_path :=
      match cube_path with
      | some s => if s ≠ "" then s else _get_cube_path env home
      | none => _get_cube_path env home,
    file_name := file_name,
    web_config_file_name := web_config_file_name }

/-- `ConfigParser.get_config_file_path`. -/
def get_config_file_path (p : ConfigParser) : String :=
  os_path_join p.cube_path p.file_name

/-- `ConfigParser.config_file_exists`. -/
def config_file_exists (fs : FS) (p : ConfigParser) : Bool :=
  fs_isfile fs (get_config_file_path p)

/-- `ConfigParser.xmla_authentication`: when the file exists it is opened
and decoded (the decode sits outside the `try`, so its failures
propagate); only the subscript `config["xmla_authentication"]` is guarded
by `except BaseException: return False`. The raw looked-up value is
returned, whatever its type. When the file does not exist the result is
`False`. -/
def xmla_authentication (fs : FS) (p : ConfigParser) : Except PyError Yaml :=
  if config_file_exists fs p then
    match open_and_yaml_load fs (get_config_file_path p) with
    | .error e => .error e
    | .ok config =>
        match yaml_getitem config "xmla_authentication" with
        | .ok v => .ok v
        | .error _ => .ok (.bool false)
  else
    .ok (.bool false)

/-- `ConfigParser.get_cubes_names`: opens the file with no prior
existence check, decodes it, and builds `{config["name"]: config["source"]}`;
any failure of that dict display is turned into
`ValueError("missed name or source tags")`. -/
def get_cubes_names (fs : FS) (p : ConfigParser) :
    Except PyError (List (Yaml × Yaml)) :=
  match open_and_yaml_load fs (get_config_file_path p) with
  | .error e => .error e
  | .ok config =>
      match yaml_getitem config "name", yaml_getitem config "source" with
      | .ok n, .ok s =>
          if py_hashable n then .ok [(n, s)]
          else .error (.valueError "missed name or source tags")
      | _, _ => .error (.valueError "missed name or source tags")

/-- The `Facts` model object. -/
structure Facts where
  table_name : Yaml
  keys : List (Yaml × Yaml)
  measures : Yaml
deriving DecidableEq

/-- The `Dimension` model object. -/
structure Dimension where
  name : Yaml
  displayName : Yaml
  columns : List (Yaml × Yaml)
deriving DecidableEq

/-- The `Cube` model object. -/
structure Cube where
  name : Yaml
  source : Yaml
  facts : List Facts
  dimensions : List Dimension
deriving DecidableEq

/-- The `Facts(...)` construction inside `_construct_cubes_excel`:
`table_name`, then the `keys` dict built by `dict(zip(columns_names,
refs))`, then `measures`, in source evaluation order. -/
def build_facts (config : Yaml) : Except PyError Facts := do
  let facts ← yaml_getitem config "facts"
  let table_name ← yaml_getitem facts "table_name"
  let keysObj ← yaml_getitem facts "keys"
  let colsY ← yaml_getitem keysObj "columns_names"
  let refsY ← yaml_getitem keysObj "refs"
  let cols ← py_iter colsY
  let refs ← py_iter refsY
  let measures ← yaml_getitem facts "measures"
  pure { table_name := table_name,
         keys := dict_of_pairs (cols.zip refs),
         measures := measures }

/-- One `(column["name"], column["name"] if "column_new_name" not in
column else column["column_new_name"])` pair of the `OrderedDict`
generator. -/
def build_column_pair (column : Yaml) : Except PyError (Yaml × Yaml) := do
  let n ← yaml_getitem column "name"
  let hasNew ← py_contains column "column_new_name"
  let v ← if hasNew then yaml_getitem column "column_new_name" else pure n
  pure (n, v)

/-- The `OrderedDict` generator consumed left to right: the sequence of
column pairs, stopping at the first failing element as the generator
would raise there. -/
def build_column_pairs : List Yaml → Except PyError (List (Yaml × Yaml))
  | [] => .ok []
  | column :: rest => do
      let p ← build_column_pair column
      let ps ← build_column_pairs rest
      pure (p :: ps)

/-- One `Dimension(...)` construction of the comprehension over
`config["dimensions"]`. -/
def build_dimension (d : Yaml) : Except PyError Dimension := do
  let dim ← yaml_getitem d "dimension"
  let name ← yaml_getitem dim "name"
  let displayName ← yaml_getitem dim "displayName"
  let hasCols ← py_contains dim "columns"
  let columns ←
    if hasCols then do
      let colsY ← yaml_getitem dim "columns"
      let cols ← py_iter colsY
      let pairs ← build_column_pairs cols
      pure (dict_of_pairs pairs)
    else
      pure ([] : List (Yaml × Yaml))
  pure { name := name, displayName := displayName, columns := columns }

/-- The `dimensions` list comprehension consumed left to right, stopping
at the first failing entry as the comprehension would raise there. -/
def build_dimensions : List Yaml → Except PyError (List Dimension)
  | [] => .ok []
  | d :: rest => do
      let dim ← build_dimension d
      let dims ← build_dimensions rest
      pure (dim :: dims)

/-- `ConfigParser._construct_cubes_excel`: open and decode the file,
build the one-element `facts` list, then the `dimensions` list, then the
single `Cube` whose `name` and `source` are looked up last. The
`try/except` that would wrap failures as a generic configuration error is
commented out in the source, so every failure propagates as raised. -/
def _construct_cubes_excel (fs : FS) (p : ConfigParser) :
    Except PyError (List Cube) := do
  let config ← open_and_yaml_load fs (get_config_file_path p)
  let f ← build_facts config
  let dimsY ← yaml_getitem config "dimensions"
  let dimsL ← py_iter dimsY
  let dims ← build_dimensions dimsL
  let name ← yaml_getitem config "name"
  let source ← yaml_getitem config "source"
  pure [{ name := name, source := source,
          facts := [f], dimensions := dims }]

/-- `ConfigParser.construct_cubes`: existence check first, then the
excel constructor; a missing file raises
`ValueError("Config file doesn't exist")`. -/
def construct_cubes (fs : FS) (p : ConfigParser) : Except PyError (List Cube) :=
  if config_file_exists fs p then _construct_cubes_excel fs p
  else .error (.valueError "Config file doesn\x27t exist")

/-- A document family for claims about the facts builder: a `facts`
section whose `keys` lists `columns_names` and `refs` as two sequences. -/
def facts_doc (tn : String) (cols refs : List Yaml) (ms : Yaml) : Yaml :=
  Yaml.map
    [("facts", Yaml.map
      [ ("table_name", Yaml.str tn),
        ("keys", Yaml.map
          [ ("columns_names", Yaml.list cols),
            ("refs", Yaml.list refs) ]),
        ("measures", ms) ])]

/-- A column entry of a dimension: a `name`, and optionally a
`column_new_name` override. -/
def column_doc : String × Option String → Yaml
  | (n, none) => Yaml.map [("name", Yaml.str n)]
  | (n, some m) =>
      Yaml.map [("name", Yaml.str n), ("column_new_name", Yaml.str m)]

/-- A dimension entry wrapping a nested `dimension` object, with an
optional `columns` sequence described by name/override pairs. -/
def dimension_doc (nm dn : String)
    (cols : Option (List (String × Option String))) : Yaml :=
  Yaml.map
    [("dimension", Yaml.map
      ([("name", Yaml.str nm), ("displayName", Yaml.str dn)] ++
        match cols with
        | some cs => [("columns", Yaml.list (cs.map column_doc))]
        | none => []))]

theorem except_bind_ok {ε α β : Type} (a : α) (f : α → Except ε β) :
    (Except.ok a : Except ε α) >>= f = f a := rfl

theorem except_bind_error {ε α β : Type} (e : ε) (f : α → Except ε β) :
    (Except.error e : Except ε α) >>= f = Except.error e := rfl

theorem dict_lookup_nil {α β : Type} [DecidableEq α] (k : α) :
    dict_lookup ([] : List (α × β)) k = none := rfl

theorem dict_lookup_cons {α β : Type} [DecidableEq α]
    (p : α × β) (d : List (α × β)) (k : α) :
    dict_lookup (p :: d) k = if p.1 = k then some p.2 else dict_lookup d k := by
  by_cases h : p.1 = k <;> simp [dict_lookup, List.find?_cons, h]

theorem dict_lookup_insert {α β : Type} [DecidableEq α] :
    ∀ (d : List (α × β)) (k : α) (v : β) (k' : α),
      dict_lookup (dict_insert d k v) k' =
        if k' = k then some v else dict_lookup d k'
  | [], k, v, k' => by
      simp only [dict_insert, dict_lookup_cons, dict_lookup_nil]
      by_cases h : k' = k
      · subst h; simp
      · simp [h, Ne.symm h]
  | p :: d, k, v, k' => by
      by_cases hp : p.1 = k
      · rw [show dict_insert (p :: d) k v = (k, v) :: d by
              simp [dict_insert, hp]]
        rw [dict_lookup_cons, dict_lookup_cons]
        by_cases h : k' = k
        · subst h; simp
        · simp [h, Ne.symm h, hp]
      · rw [show dict_insert (p :: d) k v = p :: dict_insert d k v by
              simp [dict_insert, hp]]
        rw [dict_lookup_cons, dict_lookup_cons,
            dict_lookup_insert d k v k']
        by_cases h : k' = k
        · subst h
          simp [hp]
        · simp [h]

theorem zip_truncates {α β : Type} :
    ∀ (l₁ : List α) (l₂ : List β),
      l₁.zip l₂ =
        (l₁.take (min l₁.length l₂.length)).zip
          (l₂.take (min l₁.length l₂.length))
  | [], l₂ => by simp
  | a :: l₁, [] => by simp
  | a :: l₁, b :: l₂ => by
      simp only [List.zip_cons_cons, List.length_cons,
        Nat.succ_min_succ, List.take_succ_cons]
      rw [← zip_truncates l₁ l₂]

theorem map_fst_zip_sublist {α β : Type} :
    ∀ (l₁ : List α) (l₂ : List β),
      ((l₁.zip l₂).map Prod.fst).Sublist l₁
  | [], _ => by simp
  | _ :: _, [] => by simp
  | a :: l₁, b :: l₂ => by
      simpa using List.Sublist.cons₂ a (map_fst_zip_sublist l₁ l₂)

theorem dict_lookup_foldl_insert {α β : Type} [DecidableEq α] :
    ∀ (ps acc : List (α × β)) (k : α),
      dict_lookup
          (ps.foldl (fun d p => dict_insert d p.1 p.2) acc) k =
        ((ps.reverse.find? (fun p => p.1 = k)).map (fun p => p.2)).or
          (dict_lookup acc k)
  | [], acc, k => by simp
  | p :: ps, acc, k => by
      simp only [List.foldl_cons, List.reverse_cons]
      rw [dict_lookup_foldl_insert ps (dict_insert acc p.1 p.2) k]
      rw [List.find?_append, dict_lookup_insert]
      cases hf : ps.reverse.find? (fun q => q.1 = k) with
      | some q => simp
      | none =>
          by_cases h : p.1 = k
          · simp [List.find?, h, eq_comm]
          · simp [List.find?, h]
            intro hc
            exact absurd hc.symm h

/-- On a dict built from a pair sequence, a key maps to the value paired
with its LAST occurrence in the sequence. -/
theorem dict_lookup_of_pairs {α β : Type} [DecidableEq α]
    (ps : List (α × β)) (k : α) :
    dict_lookup (dict_of_pairs ps) k =
      (ps.reverse.find? (fun p => p.1 = k)).map (fun p => p.2) := by
  rw [dict_of_pairs, dict_lookup_foldl_insert]
  cases ps.reverse.find? (fun p => p.1 = k) <;> simp [dict_lookup_nil]

theorem length_dict_insert_le {α β : Type} [DecidableEq α] :
    ∀ (d : List (α × β)) (k : α) (v : β),
      (dict_insert d k v).length ≤ d.length + 1
  | [], k, v => by simp [dict_insert]
  | p :: d, k, v => by
      by_cases h : p.1 = k
      · simp [dict_insert, h]
      · simpa [dict_insert, h] using
          Nat.succ_le_succ (length_dict_insert_le d k v)

theorem length_dict_insert_of_mem {α β : Type} [DecidableEq α] :
    ∀ (d : List (α × β)) (k : α) (v : β),
      k ∈ d.map Prod.fst → (dict_insert d k v).length = d.length
  | [], k, v, h => by simp at h
  | p :: d, k, v, h => by
      by_cases hp : p.1 = k
      · simp [dict_insert, hp]
      · have hd : k ∈ d.map Prod.fst := by
          rcases List.mem_map.mp h with ⟨q, hq, hqk⟩
          rcases List.mem_cons.mp hq with hq | hq
          · exact absurd (hq ▸ hqk) hp
          · exact List.mem_map.mpr ⟨q, hq, hqk⟩
        simp [dict_insert, hp, length_dict_insert_of_mem d k v hd]

theorem mem_keys_dict_insert {α β : Type} [DecidableEq α] :
    ∀ (d : List (α × β)) (k : α) (v : β) (a : α),
      a ∈ d.map Prod.fst ∨ a = k →
        a ∈ (dict_insert d k v).map Prod.fst
  | [], k, v, a, h => by
      rcases h with h | h
      · simp at h
      · simp [dict_insert, h]
  | p :: d, k, v, a, h => by
      by_cases hp : p.1 = k
      · rw [show dict_insert (p :: d) k v = (k, v) :: d by
              simp [dict_insert, hp]]
        rcases h with h | h
        · rcases List.mem_map.mp h with ⟨q, hq, hqk⟩
          rcases List.mem_cons.mp hq with hq | hq
          · subst hq
            have hak : a = k := by rw [← hqk, hp]
            simp [hak]
          · exact List.mem_map.mpr ⟨q, List.mem_cons_of_mem _ hq, hqk⟩
        · simp [h]
      · rw [show dict_insert (p :: d) k v = p :: dict_insert d k v by
              simp [dict_insert, hp]]
        rcases h with h | h
        · rcases List.mem_map.mp h with ⟨q, hq, hqk⟩
          rcases List.mem_cons.mp hq with hq | hq
          · subst hq
            exact List.mem_map.mpr ⟨q, List.mem_cons_self q _, hqk⟩
          · have := mem_keys_dict_insert d k v a
              (Or.inl (List.mem_map.mpr ⟨q, hq, hqk⟩))
            simp [this]
        · have := mem_keys_dict_insert d k v a (Or.inr h)
          simp [this]

theorem length_foldl_insert_le {α β : Type} [DecidableEq α] :
    ∀ (ps acc : List (α × β)),
      ((ps.foldl (fun d p => dict_insert d p.1 p.2) acc)).length ≤
        acc.length + ps.length
  | [], acc => by simp
  | p :: ps, acc => by
      simp only [List.foldl_cons, List.length_cons]
      calc (ps.foldl (fun d p => dict_insert d p.1 p.2)
              (dict_insert acc p.1 p.2)).length
          ≤ (dict_insert acc p.1 p.2).length + ps.length :=
            length_foldl_insert_le ps (dict_insert acc p.1 p.2)
        _ ≤ (acc.length + 1) + ps.length :=
            Nat.add_le_add_right (length_dict_insert_le acc p.1 p.2) _
        _ = acc.length + (ps.length + 1) := by omega

theorem length_foldl_insert_lt {α β : Type} [DecidableEq α] :
    ∀ (ps acc : List (α × β)),
      (¬ (ps.map Prod.fst).Nodup ∨ ∃ p ∈ ps, p.1 ∈ acc.map Prod.fst) →
      ((ps.foldl (fun d p => dict_insert d p.1 p.2) acc)).length + 1 ≤
        acc.length + ps.length
  | [], acc, h => by
      rcases h with h | ⟨p, hp, _⟩
      · simp at h
      · simp at hp
  | p :: ps, acc, h => by
      simp only [List.foldl_cons, List.length_cons]
      by_cases hq : (∃ q ∈ ps, q.1 ∈ (dict_insert acc p.1 p.2).map Prod.fst) ∨
          ¬ (ps.map Prod.fst).Nodup
      · have step := length_foldl_insert_lt ps (dict_insert acc p.1 p.2)
          (hq.symm.imp id id)
        have hle := length_dict_insert_le acc p.1 p.2
        omega
      · push_neg at hq
        rcases h with h | ⟨q, hqmem, hqkey⟩
        · exfalso
          simp only [List.map_cons, List.nodup_cons] at h
          apply h
          constructor
          · intro hmem
            rcases List.mem_map.mp hmem with ⟨q, hq', hqk⟩
            exact absurd (mem_keys_dict_insert acc p.1 p.2 q.1 (Or.inr hqk))
              (by simpa using hq.1 q hq')
          · exact hq.2
        · rcases List.mem_cons.mp hqmem with hqmem | hqmem
          · subst hqmem
            have heq := length_dict_insert_of_mem acc q.1 q.2 hqkey
            have := length_foldl_insert_le ps (dict_insert acc q.1 q.2)
            omega
          · exfalso
            exact absurd
              (mem_keys_dict_insert acc p.1 p.2 q.1 (Or.inl hqkey))
              (by simpa using hq.1 q hqmem)

/-- A duplicated key makes the built dict strictly shorter than the pair
sequence. -/
theorem length_dict_of_pairs_lt {α β : Type} [DecidableEq α]
    (ps : List (α × β)) (h : ¬ (ps.map Prod.fst).Nodup) :
    (dict_of_pairs ps).length < ps.length := by
  have := length_foldl_insert_lt ps [] (Or.inl h)
  simpa [dict_of_pairs] using this

theorem dict_insert_of_not_mem {α β : Type} [DecidableEq α] :
    ∀ (d : List (α × β)) (k : α) (v : β),
      k ∉ d.map Prod.fst → dict_insert d k v = d ++ [(k, v)]
  | [], k, v, _ => by simp [dict_insert]
  | p :: d, k, v, h => by
      have hp : ¬ p.1 = k := by
        intro hc
        exact h (by simp [← hc])
      have hd : k ∉ d.map Prod.fst := by
        intro hc
        exact h (by simp [hc])
      simp [dict_insert, hp, dict_insert_of_not_mem d k v hd]

theorem foldl_insert_of_nodup {α β : Type} [DecidableEq α] :
    ∀ (ps acc : List (α × β)),
      ((acc ++ ps).map Prod.fst).Nodup →
      ps.foldl (fun d p => dict_insert d p.1 p.2) acc = acc ++ ps
  | [], acc, _ => by simp
  | p :: ps, acc, h => by
      have h' := List.nodup_append.mp (by simpa using h)
      have hmem : p.1 ∉ acc.map Prod.fst := by
        intro hc
        exact h'.2.2 hc (by simp)
      rw [List.foldl_cons, dict_insert_of_not_mem acc p.1 p.2 hmem]
      have hnext : (((acc ++ [p]) ++ ps).map Prod.fst).Nodup := by
        simpa [List.append_assoc] using h
      rw [foldl_insert_of_nodup ps (acc ++ [p]) hnext]
      simp

/-- With pairwise-distinct keys, building the dict keeps the pair
sequence exactly as given. -/
theorem dict_of_pairs_of_nodup {α β : Type} [DecidableEq α]
    (ps : List (α × β)) (h : (ps.map Prod.fst).Nodup) :
    dict_of_pairs ps = ps := by
  simpa [dict_of_pairs] using foldl_insert_of_nodup ps [] (by simpa using h)


/-- A sample valid configuration document (the structure from the
module docstring), used to instantiate hypotheses at concrete inputs. -/
def sample_doc : Yaml := Yaml.map
  [ ("xmla_authentication", Yaml.bool false),
    ("name", Yaml.str "labster"),
    ("source", Yaml.str "csv"),
    ("facts", Yaml.map
      [ ("table_name", Yaml.str "stats_line"),
        ("keys", Yaml.map
          [ ("columns_names", Yaml.list [Yaml.str "departement_id"]),
            ("refs", Yaml.list [Yaml.str "orgunit.id"]) ]),
        ("measures", Yaml.list [Yaml.str "montant"]) ]),
    ("dimensions", Yaml.list
      [ Yaml.map [("dimension", Yaml.map
          [ ("name", Yaml.str "orgunit"),
            ("displayName", Yaml.str "Organisation"),
            ("columns", Yaml.list
              [ Yaml.map [("name", Yaml.str "type")],
                Yaml.map [("name", Yaml.str "nom"),
                          ("column_new_name", Yaml.str "Name")] ]) ])] ]) ]

/-- A parser built with no explicit cube path, an empty environment and
home directory `/home/u`. -/
def sample_cp : ConfigParser := ConfigParser.init [] "/home/u" none

/-- A filesystem holding the sample document at the resolved path. -/
def sample_fs : FS :=
  ⟨[("/home/u/olapy-data/cubes/cubes-config.yml", Except.ok sample_doc)]⟩

/-- C1: for every parser state whose configuration document loads and has
top-level `name` and `source` values, a successful `construct_cubes()`
returns exactly one `Cube`, whose `name` and `source` equal the
document's top-level values. -/
theorem c1_construct_cubes_one_cube
    (fs : FS) (p : ConfigParser) (config n s : Yaml) (cubes : List Cube)
    (hload : open_and_yaml_load fs (get_config_file_path p) = .ok config)
    (hname : yaml_getitem config "name" = .ok n)
    (hsource : yaml_getitem config "source" = .ok s)
    (hok : construct_cubes fs p = .ok cubes) :
    ∃ c : Cube, cubes = [c] ∧ c.name = n ∧ c.source = s := by
  unfold construct_cubes at hok
  by_cases he : config_file_exists fs p
  · rw [if_pos (by simpa using he)] at hok
    unfold _construct_cubes_excel at hok
    rw [hload, except_bind_ok] at hok
    cases hf : build_facts config with
    | error e => rw [hf, except_bind_error] at hok; simp at hok
    | ok f =>
      rw [hf, except_bind_ok] at hok
      cases hd : yaml_getitem config "dimensions" with
      | error e => rw [hd, except_bind_error] at hok; simp at hok
      | ok dimsY =>
        rw [hd, except_bind_ok] at hok
        cases hi : py_iter dimsY with
        | error e => rw [hi, except_bind_error] at hok; simp at hok
        | ok dimsL =>
          rw [hi, except_bind_ok] at hok
          cases hb : build_dimensions dimsL with
          | error e => rw [hb, except_bind_error] at hok; simp at hok
          | ok dims =>
            rw [hb, except_bind_ok, hname, except_bind_ok,
                hsource, except_bind_ok] at hok
            have hlist : [(⟨n, s, [f], dims⟩ : Cube)] = cubes := by
              simpa [pure, Except.pure] using hok
            exact ⟨_, hlist.symm, rfl, rfl⟩
  · rw [if_neg (by simpa using he)] at hok
    simp at hok

/-- The one cube the sample document describes. -/
def sample_cube : Cube :=
  { name := Yaml.str "labster", source := Yaml.str "csv",
    facts := [{ table_name := Yaml.str "stats_line",
                keys := [(Yaml.str "departement_id", Yaml.str "orgunit.id")],
                measures := Yaml.list [Yaml.str "montant"] }],
    dimensions := [{ name := Yaml.str "orgunit",
                     displayName := Yaml.str "Organisation",
                     columns := [(Yaml.str "type", Yaml.str "type"),
                                 (Yaml.str "nom", Yaml.str "Name")] }] }

/-- C1 witness: the sample document yields exactly the one `labster`/
`csv` cube. -/
theorem c1_witness :
    ∃ c : Cube, construct_cubes sample_fs sample_cp = .ok [c] ∧
      c.name = Yaml.str "labster" ∧ c.source = Yaml.str "csv" := by
  have h := c1_construct_cubes_one_cube sample_fs sample_cp
    sample_doc (Yaml.str "labster") (Yaml.str "csv") [sample_cube]
    (by decide) (by decide) (by decide) (by decide)
  rcases h with ⟨c, hc, hn, hs⟩
  exact ⟨c, by rw [← hc]; decide, hn, hs⟩

/-- Core fact shared by the keys-pairing claims: a successful
`build_facts` yields `keys = dict(zip(columns_names, refs))`. -/
theorem build_facts_keys_eq
    (config factsY keysY : Yaml) (cols refs : List Yaml) (f : Facts)
    (hfacts : yaml_getitem config "facts" = .ok factsY)
    (hkeys : yaml_getitem factsY "keys" = .ok keysY)
    (hcols : yaml_getitem keysY "columns_names" = .ok (.list cols))
    (hrefs : yaml_getitem keysY "refs" = .ok (.list refs))
    (hok : build_facts config = .ok f) :
    f.keys = dict_of_pairs (cols.zip refs) := by
  unfold build_facts at hok
  rw [hfacts, except_bind_ok] at hok
  cases htn : yaml_getitem factsY "table_name" with
  | error e => rw [htn, except_bind_error] at hok; simp at hok
  | ok tn =>
    rw [htn, except_bind_ok, hkeys, except_bind_ok, hcols,
        except_bind_ok, hrefs, except_bind_ok] at hok
    rw [show py_iter (.list cols) = .ok cols from rfl, except_bind_ok,
        show py_iter (.list refs) = .ok refs from rfl,
        except_bind_ok] at hok
    cases hm : yaml_getitem factsY "measures" with
    | error e => rw [hm, except_bind_error] at hok; simp at hok
    | ok ms =>
      rw [hm, except_bind_ok] at hok
      have hfe : (⟨tn, dict_of_pairs (cols.zip refs), ms⟩ : Facts) = f := by
        simpa [pure, Except.pure] using hok
      rw [← hfe]

/-- C2: whenever `facts.keys` lists `columns_names` and `refs` as two
sequences, the built `Facts.keys` is the dict obtained by zipping them
position by position; the zip silently truncates to the shorter
sequence; and with distinct column names the dict is exactly the
position-by-position pairing. -/
theorem c2_facts_keys_zip
    (config factsY keysY : Yaml) (cols refs : List Yaml) (f : Facts)
    (hfacts : yaml_getitem config "facts" = .ok factsY)
    (hkeys : yaml_getitem factsY "keys" = .ok keysY)
    (hcols : yaml_getitem keysY "columns_names" = .ok (.list cols))
    (hrefs : yaml_getitem keysY "refs" = .ok (.list refs))
    (hok : build_facts config = .ok f) :
    f.keys = dict_of_pairs (cols.zip refs)
    ∧ cols.zip refs =
        (cols.take (min cols.length refs.length)).zip
          (refs.take (min cols.length refs.length))
    ∧ (cols.Nodup → f.keys = cols.zip refs) := by
  have hkeq : f.keys = dict_of_pairs (cols.zip refs) :=
    build_facts_keys_eq config factsY keysY cols refs f
      hfacts hkeys hcols hrefs hok
  refine ⟨hkeq, zip_truncates cols refs, fun hnd => ?_⟩
  rw [hkeq, dict_of_pairs_of_nodup]
  exact (map_fst_zip_sublist cols refs).nodup hnd

/-- C2 witness: the sample column/ref pair yields exactly
`{departement_id: orgunit.id}`, and a longer column list is truncated
against a single ref. -/
theorem c2_witness :
    (∃ f : Facts,
      build_facts (facts_doc "stats_line" [Yaml.str "departement_id"]
          [Yaml.str "orgunit.id"] (Yaml.list [])) = .ok f ∧
      f.keys = [(Yaml.str "departement_id", Yaml.str "orgunit.id")]) ∧
    build_facts (facts_doc "t" [Yaml.str "a", Yaml.str "b"]
        [Yaml.str "r"] (Yaml.list [])) =
      .ok ⟨Yaml.str "t", [(Yaml.str "a", Yaml.str "r")], Yaml.list []⟩ := by
  constructor
  · have hok : build_facts (facts_doc "stats_line"
        [Yaml.str "departement_id"] [Yaml.str "orgunit.id"]
        (Yaml.list [])) =
        .ok ⟨Yaml.str "stats_line",
             [(Yaml.str "departement_id", Yaml.str "orgunit.id")],
             Yaml.list []⟩ := by decide
    have h := c2_facts_keys_zip
      (facts_doc "stats_line" [Yaml.str "departement_id"]
        [Yaml.str "orgunit.id"] (Yaml.list []))
      (Yaml.map
        [ ("table_name", Yaml.str "stats_line"),
          ("keys", Yaml.map
            [ ("columns_names", Yaml.list [Yaml.str "departement_id"]),
              ("refs", Yaml.list [Yaml.str "orgunit.id"]) ]),
          ("measures", Yaml.list []) ])
      (Yaml.map
        [ ("columns_names", Yaml.list [Yaml.str "departement_id"]),
          ("refs", Yaml.list [Yaml.str "orgunit.id"]) ])
      [Yaml.str "departement_id"] [Yaml.str "orgunit.id"] _
      (by decide) (by decide) (by decide) (by decide) hok
    exact ⟨_, hok, by simpa using h.2.2 (by decide)⟩
  · decide

theorem build_column_pair_doc (c : String × Option String) :
    build_column_pair (column_doc c) =
      .ok (Yaml.str c.1, Yaml.str (c.2.getD c.1)) := by
  rcases c with ⟨n, _ | m⟩ <;> rfl

theorem build_column_pairs_doc :
    ∀ cs : List (String × Option String),
      build_column_pairs (cs.map column_doc) =
        .ok (cs.map (fun c => (Yaml.str c.1, Yaml.str (c.2.getD c.1))))
  | [] => rfl
  | c :: cs => by
      simp only [List.map_cons, build_column_pairs]
      rw [build_column_pair_doc, except_bind_ok,
          build_column_pairs_doc cs, except_bind_ok]
      rfl

/-- C3: for a dimension entry with a `columns` sequence of name/override
entries, the built `Dimension.columns` is the ordered dict sending each
name to its override when present and to itself otherwise; with distinct
names the dict is exactly that sequence in declaration order; and with
no `columns` key the built columns mapping is empty. -/
theorem c3_dimension_columns
    (d dim nm dn : Yaml) (cs : List (String × Option String))
    (hdim : yaml_getitem d "dimension" = .ok dim)
    (hnm : yaml_getitem dim "name" = .ok nm)
    (hdn : yaml_getitem dim "displayName" = .ok dn) :
    (py_contains dim "columns" = .ok true →
      yaml_getitem dim "columns" = .ok (.list (cs.map column_doc)) →
      build_dimension d = .ok ⟨nm, dn,
        dict_of_pairs (cs.map (fun c =>
          (Yaml.str c.1, Yaml.str (c.2.getD c.1))))⟩)
    ∧ ((cs.map Prod.fst).Nodup →
        dict_of_pairs (cs.map (fun c =>
            (Yaml.str c.1, Yaml.str (c.2.getD c.1)))) =
          cs.map (fun c => (Yaml.str c.1, Yaml.str (c.2.getD c.1))))
    ∧ (py_contains dim "columns" = .ok false →
        build_dimension d = .ok ⟨nm, dn, []⟩) := by
  refine ⟨fun hc hcols => ?_, fun hnd => ?_, fun hc => ?_⟩
  · unfold build_dimension
    rw [hdim, except_bind_ok, hnm, except_bind_ok, hdn, except_bind_ok,
        hc, except_bind_ok]
    simp only [if_true]
    rw [hcols, except_bind_ok,
        show py_iter (.list (cs.map column_doc)) =
          .ok (cs.map column_doc) from rfl, except_bind_ok,
        build_column_pairs_doc, except_bind_ok]
    rfl
  · apply dict_of_pairs_of_nodup
    have hmf : (cs.map (fun c =>
        (Yaml.str c.1, Yaml.str (c.2.getD c.1)))).map Prod.fst =
        (cs.map Prod.fst).map Yaml.str := by
      simp [List.map_map, Function.comp]
    rw [hmf]
    exact hnd.map (fun a b h => by injection h)
  · unfold build_dimension
    rw [hdim, except_bind_ok, hnm, except_bind_ok, hdn, except_bind_ok,
        hc, except_bind_ok]
    simp only [Bool.false_eq_true, if_false]
    rfl

/-- C3 witness: the documented example yields the ordered mapping
`{type: type, nom: Name}`, and a dimension without `columns` yields an
empty mapping. -/
theorem c3_witness :
    build_dimension (dimension_doc "orgunit" "Organisation"
        (some [("type", none), ("nom", some "Name")])) =
      .ok ⟨Yaml.str "orgunit", Yaml.str "Organisation",
           [(Yaml.str "type", Yaml.str "type"),
            (Yaml.str "nom", Yaml.str "Name")]⟩ ∧
    build_dimension (dimension_doc "orgunit" "Organisation" none) =
      .ok ⟨Yaml.str "orgunit", Yaml.str "Organisation", []⟩ := by
  have h1 := c3_dimension_columns
    (dimension_doc "orgunit" "Organisation"
      (some [("type", none), ("nom", some "Name")]))
    (Yaml.map
      [ ("name", Yaml.str "orgunit"),
        ("displayName", Yaml.str "Organisation"),
        ("columns", Yaml.list
          [ Yaml.map [("name", Yaml.str "type")],
            Yaml.map [("name", Yaml.str "nom"),
                      ("column_new_name", Yaml.str "Name")] ]) ])
    (Yaml.str "orgunit") (Yaml.str "Organisation")
    [("type", none), ("nom", some "Name")]
    (by decide) (by decide) (by decide)
  have h2 := c3_dimension_columns
    (dimension_doc "orgunit" "Organisation" none)
    (Yaml.map
      [ ("name", Yaml.str "orgunit"),
        ("displayName", Yaml.str "Organisation") ])
    (Yaml.str "orgunit") (Yaml.str "Organisation")
    []
    (by decide) (by decide) (by decide)
  exact ⟨h1.1 (by decide) (by decide), h2.2.2 (by decide)⟩

/-- C10: with equal-length `columns_names`/`refs` sequences in which a
column name occurs more than once, the built `Facts.keys` has strictly
fewer entries than the input sequence, construction still succeeds, and
every key maps to the ref paired with its last occurrence. -/
theorem c10_duplicate_column_last_ref_wins
    (config factsY keysY : Yaml) (cols refs : List Yaml) (f : Facts)
    (hfacts : yaml_getitem config "facts" = .ok factsY)
    (hkeys : yaml_getitem factsY "keys" = .ok keysY)
    (hcols : yaml_getitem keysY "columns_names" = .ok (.list cols))
    (hrefs : yaml_getitem keysY "refs" = .ok (.list refs))
    (hok : build_facts config = .ok f)
    (hlen : cols.length = refs.length)
    (hdup : ¬ cols.Nodup) :
    f.keys.length < cols.length
    ∧ ∀ k, dict_lookup f.keys k =
        ((cols.zip refs).reverse.find? (fun p => p.1 = k)).map
          (fun p => p.2) := by
  have hkeq : f.keys = dict_of_pairs (cols.zip refs) :=
    build_facts_keys_eq config factsY keysY cols refs f
      hfacts hkeys hcols hrefs hok
  constructor
  · rw [hkeq]
    have hmf : (cols.zip refs).map Prod.fst = cols :=
      List.map_fst_zip cols refs (le_of_eq hlen)
    have hnd : ¬ ((cols.zip refs).map Prod.fst).Nodup := by
      rw [hmf]; exact hdup
    have hlt := length_dict_of_pairs_lt (cols.zip refs) hnd
    have hzl : (cols.zip refs).length = cols.length := by
      rw [List.length_zip, hlen, Nat.min_self]
    omega
  · intro k
    rw [hkeq, dict_lookup_of_pairs]

/-- C10 witness: `columns_names = [a, a]`, `refs = [r1, r2]` builds the
one-entry dict `{a: r2}` with no error. -/
theorem c10_witness :
    build_facts (facts_doc "t" [Yaml.str "a", Yaml.str "a"]
        [Yaml.str "r1", Yaml.str "r2"] (Yaml.list [])) =
      .ok ⟨Yaml.str "t", [(Yaml.str "a", Yaml.str "r2")], Yaml.list []⟩
    ∧ ([(Yaml.str "a", Yaml.str "r2")] : List (Yaml × Yaml)).length < 2
    ∧ dict_lookup [(Yaml.str "a", Yaml.str "r2")] (Yaml.str "a") =
        some (Yaml.str "r2") := by
  have hok : build_facts (facts_doc "t" [Yaml.str "a", Yaml.str "a"]
      [Yaml.str "r1", Yaml.str "r2"] (Yaml.list [])) =
      .ok ⟨Yaml.str "t", [(Yaml.str "a", Yaml.str "r2")], Yaml.list []⟩ := by
    decide
  have h := c10_duplicate_column_last_ref_wins
    (facts_doc "t" [Yaml.str "a", Yaml.str "a"]
      [Yaml.str "r1", Yaml.str "r2"] (Yaml.list []))
    (Yaml.map
      [ ("table_name", Yaml.str "t"),
        ("keys", Yaml.map
          [ ("columns_names", Yaml.list [Yaml.str "a", Yaml.str "a"]),
            ("refs", Yaml.list [Yaml.str "r1", Yaml.str "r2"]) ]),
        ("measures", Yaml.list []) ])
    (Yaml.map
      [ ("columns_names", Yaml.list [Yaml.str "a", Yaml.str "a"]),
        ("refs", Yaml.list [Yaml.str "r1", Yaml.str "r2"]) ])
    [Yaml.str "a", Yaml.str "a"] [Yaml.str "r1", Yaml.str "r2"] _
    (by decide) (by decide) (by decide) (by decide) hok
    (by decide) (by decide)
  exact ⟨hok, h.1, by simpa using h.2 (Yaml.str "a")⟩

theorem exists_of_load_ok (fs : FS) (path : String) (config : Yaml)
    (h : open_and_yaml_load fs path = .ok config) :
    fs_isfile fs path = true := by
  unfold open_and_yaml_load at h
  unfold fs_isfile
  cases hl : fs_lookup fs path with
  | none => rw [hl] at h; simp at h
  | some c => simp [hl]

/-- C4 counterexample: a present but non-boolean `xmla_authentication`
value is returned as is (not replaced by `False`), and a document that
fails to decode propagates the decode error instead of returning
`False`. -/
theorem c4_cex :
    (xmla_authentication
        ⟨[("/home/u/olapy-data/cubes/cubes-config.yml",
           Except.ok (Yaml.map [("xmla_authentication",
             Yaml.str "hello")]))]⟩ sample_cp =
        .ok (Yaml.str "hello")
      ∧ Yaml.str "hello" ≠ Yaml.bool false)
    ∧ xmla_authentication
        ⟨[("/home/u/olapy-data/cubes/cubes-config.yml",
           Except.error ())]⟩ sample_cp =
        .error .yamlError := by decide

/-- C4 as amended: `xmla_authentication()` returns `False` when the file
does not exist or when the key lookup raises (missing key, non-mapping
document); when the key is present it returns the stored value verbatim,
whatever its type; and a decode failure of the document propagates
instead of being absorbed. -/
theorem c4_xmla_flag (fs : FS) (p : ConfigParser) :
    (config_file_exists fs p = false →
      xmla_authentication fs p = .ok (.bool false))
    ∧ (∀ config e,
        open_and_yaml_load fs (get_config_file_path p) = .ok config →
        yaml_getitem config "xmla_authentication" = .error e →
        xmla_authentication fs p = .ok (.bool false))
    ∧ (∀ config v,
        open_and_yaml_load fs (get_config_file_path p) = .ok config →
        yaml_getitem config "xmla_authentication" = .ok v →
        xmla_authentication fs p = .ok v)
    ∧ (fs_lookup fs (get_config_file_path p) = some (.error ()) →
        xmla_authentication fs p = .error .yamlError) := by
  refine ⟨fun h => ?_, fun config e hload hkey => ?_,
          fun config v hload hkey => ?_, fun h => ?_⟩
  · unfold xmla_authentication
    rw [if_neg (by simp [h])]
  · have he : config_file_exists fs p = true :=
      exists_of_load_ok fs (get_config_file_path p) config hload
    unfold xmla_authentication
    rw [if_pos he, hload]
    simp [hkey]
  · have he : config_file_exists fs p = true :=
      exists_of_load_ok fs (get_config_file_path p) config hload
    unfold xmla_authentication
    rw [if_pos he, hload]
    simp [hkey]
  · have he : config_file_exists fs p = true := by
      simp [config_file_exists, fs_isfile, h]
    have hload : open_and_yaml_load fs (get_config_file_path p) =
        .error .yamlError := by
      simp [open_and_yaml_load, h]
    unfold xmla_authentication
    rw [if_pos he, hload]

/-- C4 witness: the four amended behaviors at concrete states — missing
file, missing key, boolean value returned verbatim, decode failure
propagated. -/
theorem c4_witness :
    xmla_authentication ⟨[]⟩ sample_cp = .ok (.bool false)
    ∧ xmla_authentication
        ⟨[("/home/u/olapy-data/cubes/cubes-config.yml",
           Except.ok (Yaml.map []))]⟩ sample_cp = .ok (.bool false)
    ∧ xmla_authentication
        ⟨[("/home/u/olapy-data/cubes/cubes-config.yml",
           Except.ok (Yaml.map [("xmla_authentication",
             Yaml.bool true)]))]⟩ sample_cp = .ok (.bool true)
    ∧ xmla_authentication
        ⟨[("/home/u/olapy-data/cubes/cubes-config.yml",
           Except.error ())]⟩ sample_cp = .error .yamlError := by
  refine ⟨(c4_xmla_flag ⟨[]⟩ sample_cp).1 (by decide),
          (c4_xmla_flag _ sample_cp).2.1 (Yaml.map [])
            (.keyError "xmla_authentication") (by decide) (by decide),
          (c4_xmla_flag _ sample_cp).2.2.1
            (Yaml.map [("xmla_authentication", Yaml.bool true)])
            (Yaml.bool true) (by decide) (by decide),
          (c4_xmla_flag _ sample_cp).2.2.2 (by decide)⟩

theorem join_join_fixed (a : String) (ha : a ≠ "")
    (hl : a.data.getLast? ≠ some '/') :
    os_path_join (os_path_join a "olapy-data") "cubes" =
      a ++ "/olapy-data/cubes" := by
  have e1 : os_path_join a "olapy-data" = a ++ "/" ++ "olapy-data" := by
    unfold os_path_join
    rw [if_neg (by decide), if_neg ha, if_neg hl]
  have hne : ¬ (a ++ "/" ++ "olapy-data") = "" := by
    intro hc
    have := congrArg String.data hc
    simp [String.data_append] at this
  have hlast : ¬ (a ++ "/" ++ "olapy-data").data.getLast? = some '/' := by
    intro hc
    rw [String.data_append, String.data_append,
        List.getLast?_append] at hc
    simp at hc
  have e2 : os_path_join (a ++ "/" ++ "olapy-data") "cubes" =
      a ++ "/" ++ "olapy-data" ++ "/" ++ "cubes" := by
    unfold os_path_join
    rw [if_neg (by decide), if_neg hne, if_neg hlast]
  rw [e1, e2, String.append_assoc, String.append_assoc,
      String.append_assoc]
  rfl

/-- C5 counterexample: with `OLAPY_PATH=/opt/olapy` the resolved base
path is `/opt/olapy/olapy-data/cubes`, not the environment value
itself. -/
theorem c5_cex :
    _get_cube_path [("OLAPY_PATH", "/opt/olapy")] "/home/u" =
      "/opt/olapy/olapy-data/cubes"
    ∧ _get_cube_path [("OLAPY_PATH", "/opt/olapy")] "/home/u" ≠
        "/opt/olapy" := by decide

/-- C5 as amended: the environment variable replaces only the home
directory, and the fixed subpath `olapy-data/cubes` is appended in both
cases — with the variable set the result is the variable value plus
`/olapy-data/cubes`, not the variable value alone. -/
theorem c5_cube_path (env : Env) (home v : String) :
    (env_lookup env "OLAPY_PATH" = some v → v ≠ "" →
      v.data.getLast? ≠ some '/' →
      _get_cube_path env home = v ++ "/olapy-data/cubes")
    ∧ (env_lookup env "OLAPY_PATH" = none → home ≠ "" →
      home.data.getLast? ≠ some '/' →
      _get_cube_path env home = home ++ "/olapy-data/cubes") := by
  constructor
  · intro h hne hl
    unfold _get_cube_path
    rw [h]
    exact join_join_fixed v hne hl
  · intro h hne hl
    unfold _get_cube_path
    rw [h]
    exact join_join_fixed home hne hl

/-- C5 witness: the amended resolution at a set and at an absent
environment variable. -/
theorem c5_witness :
    _get_cube_path [("OLAPY_PATH", "/opt/olapy")] "/home/u" =
      "/opt/olapy" ++ "/olapy-data/cubes"
    ∧ _get_cube_path [] "/home/u" = "/home/u" ++ "/olapy-data/cubes" := by
  exact ⟨(c5_cube_path [("OLAPY_PATH", "/opt/olapy")] "/home/u"
            "/opt/olapy").1 (by decide) (by decide) (by decide),
         (c5_cube_path [] "/home/u" "").2
            (by decide) (by decide) (by decide)⟩

/-- C6 counterexample: a document with no `facts` key makes
`construct_cubes()` surface the raw `KeyError("facts")`, not a uniform
configuration error — the wrapping `try/except` is commented out in the
source. -/
theorem c6_cex :
    construct_cubes
        ⟨[("/home/u/olapy-data/cubes/cubes-config.yml",
           Except.ok (Yaml.map [("name", Yaml.str "c")]))]⟩
        sample_cp = .error (.keyError "facts")
    ∧ ((.error (.keyError "facts")) : Except PyError (List Cube)) ≠
        .error (.valueError "bad configuration in the configuration file") := by
  decide

/-- C6 as amended: structural problems during the build are NOT caught
and re-wrapped; a document whose mapping lacks the `facts` key makes the
originating `KeyError("facts")` propagate out of `construct_cubes()`. -/
theorem c6_structural_error_propagates
    (fs : FS) (p : ConfigParser) (m : List (String × Yaml))
    (hexists : config_file_exists fs p = true)
    (hload : open_and_yaml_load fs (get_config_file_path p) =
      .ok (.map m))
    (hnof : m.find? (fun q => q.1 = "facts") = none) :
    construct_cubes fs p = .error (.keyError "facts") := by
  have hbf : build_facts (.map m) = .error (.keyError "facts") := by
    unfold build_facts
    rw [show yaml_getitem (.map m) "facts" = .error (.keyError "facts")
          from by simp [yaml_getitem, hnof],
        except_bind_error]
  unfold construct_cubes
  rw [if_pos hexists]
  unfold _construct_cubes_excel
  rw [hload, except_bind_ok, hbf, except_bind_error]

/-- C6 witness: the amended propagation at a concrete document lacking
`facts`. -/
theorem c6_witness :
    construct_cubes
        ⟨[("/home/u/olapy-data/cubes/cubes-config.yml",
           Except.ok (Yaml.map [("name", Yaml.str "c"),
                                ("source", Yaml.str "csv")]))]⟩
        sample_cp = .error (.keyError "facts") :=
  c6_structural_error_propagates _ sample_cp
    [("name", Yaml.str "c"), ("source", Yaml.str "csv")]
    (by decide) (by decide) (by decide)

/-- C7: when no file exists at the resolved configuration path,
`construct_cubes()` fails with the `ValueError` whose message indicates
the absence, and no cube list is produced. -/
theorem c7_missing_file_fatal (fs : FS) (p : ConfigParser)
    (h : config_file_exists fs p = false) :
    construct_cubes fs p =
      .error (.valueError "Config file doesn\x27t exist") := by
  unfold construct_cubes
  rw [if_neg (by simp [h])]

/-- C7 witness: the empty filesystem. -/
theorem c7_witness :
    construct_cubes ⟨[]⟩ sample_cp =
      .error (.valueError "Config file doesn\x27t exist") :=
  c7_missing_file_fatal ⟨[]⟩ sample_cp (by decide)

/-- C8 counterexample: the identity failure carries the source message
`missed name or source tags`, not the message `missing name or source`
stated in the claim. -/
theorem c8_cex :
    get_cubes_names
        ⟨[("/home/u/olapy-data/cubes/cubes-config.yml",
           Except.ok (Yaml.map [("source", Yaml.str "csv")]))]⟩
        sample_cp =
      .error (.valueError "missed name or source tags")
    ∧ ((.error (.valueError "missed name or source tags")) :
        Except PyError (List (Yaml × Yaml))) ≠
      .error (.valueError "missing name or source") := by
  decide

/-- C8 as amended: a document mapping missing the top-level `name` or
`source` key makes `get_cubes_names()` fail with the distinct identity
error `ValueError("missed name or source tags")` — not a generic
configuration error, and not swallowed. -/
theorem c8_missing_identity
    (fs : FS) (p : ConfigParser) (m : List (String × Yaml))
    (hload : open_and_yaml_load fs (get_config_file_path p) =
      .ok (.map m))
    (hmiss : m.find? (fun q => q.1 = "name") = none ∨
             m.find? (fun q => q.1 = "source") = none) :
    get_cubes_names fs p =
      .error (.valueError "missed name or source tags") := by
  simp only [get_cubes_names, hload]
  rcases hmiss with hm | hm
  · have hn : yaml_getitem (Yaml.map m) "name" =
        .error (.keyError "name") := by
      simp [yaml_getitem, hm]
    cases hs : yaml_getitem (Yaml.map m) "source" <;> rw [hn] <;> rfl
  · have hs : yaml_getitem (Yaml.map m) "source" =
        .error (.keyError "source") := by
      simp [yaml_getitem, hm]
    cases hn : yaml_getitem (Yaml.map m) "name" <;> rw [hs] <;> rfl

/-- C8 witness: concrete documents missing `name`, and missing
`source`. -/
theorem c8_witness :
    get_cubes_names
        ⟨[("/home/u/olapy-data/cubes/cubes-config.yml",
           Except.ok (Yaml.map [("source", Yaml.str "csv")]))]⟩
        sample_cp =
      .error (.valueError "missed name or source tags")
    ∧ get_cubes_names
        ⟨[("/home/u/olapy-data/cubes/cubes-config.yml",
           Except.ok (Yaml.map [("name", Yaml.str "labster")]))]⟩
        sample_cp =
      .error (.valueError "missed name or source tags") :=
  ⟨c8_missing_identity _ sample_cp [("source", Yaml.str "csv")]
      (by decide) (Or.inl (by decide)),
   c8_missing_identity _ sample_cp [("name", Yaml.str "labster")]
      (by decide) (Or.inr (by decide))⟩

/-- C9: `get_cubes_names()` makes no existence check — with no file at
the resolved path it fails with the file-not-found error from opening
the file, not with the missing-config `ValueError` that
`construct_cubes()` raises. -/
theorem c9_get_cubes_names_no_existence_check
    (fs : FS) (p : ConfigParser)
    (h : fs_lookup fs (get_config_file_path p) = none) :
    get_cubes_names fs p =
      .error (.fileNotFoundError (get_config_file_path p))
    ∧ get_cubes_names fs p ≠
        .error (.valueError "Config file doesn\x27t exist") := by
  have hload : open_and_yaml_load fs (get_config_file_path p) =
      .error (.fileNotFoundError (get_config_file_path p)) := by
    simp [open_and_yaml_load, h]
  have heq : get_cubes_names fs p =
      .error (.fileNotFoundError (get_config_file_path p)) := by
    simp only [get_cubes_names, hload]
  exact ⟨heq, by rw [heq]; simp⟩

/-- C9 witness: the empty filesystem. -/
theorem c9_witness :
    get_cubes_names ⟨[]⟩ sample_cp =
      .error (.fileNotFoundError
        "/home/u/olapy-data/cubes/cubes-config.yml")
    ∧ get_cubes_names ⟨[]⟩ sample_cp ≠
        .error (.valueError "Config file doesn\x27t exist") := by
  have h := c9_get_cubes_names_no_existence_check ⟨[]⟩ sample_cp
    (by decide)
  exact ⟨by rw [h.1]; decide, h.2⟩
